import Mathlib

/-!
Shallow embedding of the TEI-to-record converter in `grobid_parse.py`
(the metadata extractors, the reference-table builder `parse_references`,
the paragraph reconstructor `reconstruct_paragraph` and the section
assembler `parse_text`), together with theorems settling the frozen
claims about it.

The markup tree is modelled by `Node` (element with tag, attributes and
ordered children, or a bare text node, mirroring bs4's `Tag` /
`NavigableString`).  Python strings are Lean `String`s; `re.sub` with the
two concrete patterns used by the source is modelled character-exactly by
`figSubStr` and `suppSubStr` below (left-to-right scan, leftmost match,
alternation in pattern order, greedy quantifiers).  Fallible code paths
(attribute access on a missing tag, `NavigableString.contents`) are
modelled with `Except Unit`.
-/

/-- Python `\s` on the ASCII range: the whitespace class used by the
`re` patterns of the source. -/
def isWs (c : Char) : Bool :=
  c = ' ' || c = '\t' || c = '\n' || c = '\x0d' || c = '\x0b' || c = '\x0c'

/-- Python `str.strip()` / leading part: drop leading whitespace. -/
def stripLeadL (l : List Char) : List Char := l.dropWhile isWs

/-- Python `str.strip()` on ASCII input: drop leading and trailing whitespace. -/
def pyStrip (s : String) : String :=
  ⟨((stripLeadL s.data).reverse.dropWhile isWs).reverse⟩

/-- Python `str.lower()` on ASCII input. -/
def pyLower (s : String) : String := ⟨s.data.map Char.toLower⟩

/-- Python `needle in hay` (substring test). -/
def containsSubL (hay needle : List Char) : Bool :=
  match hay with
  | [] => needle.isEmpty
  | _ :: t => needle.isPrefixOf hay || containsSubL t needle

/-- Substring test on strings (Python `in`). -/
def strContains (hay needle : String) : Bool := containsSubL hay.data needle.data

/-- Python `str.startswith`. -/
def strStartsWith (s pre : String) : Bool := pre.data.isPrefixOf s.data

/-- Python `str.endswith`. -/
def strEndsWith (s suf : String) : Bool := suf.data.reverse.isPrefixOf s.data.reverse

/-- Python `s[n:]`. -/
def strDrop (s : String) (n : Nat) : String := ⟨s.data.drop n⟩

/-! ### The two `re.sub` patterns of `reconstruct_paragraph`

`patterns_to_remove = r"\s*\(?[Ff]igure\s*|\s*\(?[Ff]ig\.?\s*|\s*\(?[Tt]able\s*"`
and
`r"\s*\(?\s*[,]*\s*[Ss]upplementary\s*\)?|\s*\(?\s*[,]*\s*[A-Za-z]+\s*[Ss]upplementary\s*\)?"`,
both applied with `re.IGNORECASE` and replacement `''`.

Because the character classes consumed by the successive quantifiers of
each alternative are pairwise disjoint, Python's backtracking is
deterministic here except for the `[A-Za-z]+` loop of the second
supplementary alternative, which tries the longest letter run first and
gives letters back one at a time; `suppTryK` reproduces that order. -/

/-- `\s*`: greedily consume whitespace, returning the rest. -/
def skipWs : List Char → List Char
  | [] => []
  | c :: cs => if isWs c then skipWs cs else c :: cs

/-- `[,]*`: greedily consume commas. -/
def skipCommas : List Char → List Char
  | [] => []
  | c :: cs => if c = ',' then skipCommas cs else c :: cs

/-- `x?`: consume one given character if present. -/
def optCh (c : Char) : List Char → List Char
  | [] => []
  | d :: ds => if d = c then ds else d :: ds

/-- Case-insensitive literal match; returns the rest on success.
The literal is given in lowercase. -/
def litCI : List Char → List Char → Option (List Char)
  | [], s => some s
  | _ :: _, [] => none
  | l :: ls, c :: cs => if c.toLower = l then litCI ls cs else none

/-- `\s*\(?` shared by the three figure/table alternatives. -/
def figPre (s : List Char) : List Char := optCh '(' (skipWs s)

/-- `\s*\(?[Ff]igure\s*` -/
def figBranch1 (s : List Char) : Option (List Char) :=
  (litCI "figure".data (figPre s)).map skipWs

/-- `\s*\(?[Ff]ig\.?\s*` -/
def figBranch2 (s : List Char) : Option (List Char) :=
  (litCI "fig".data (figPre s)).map (fun r => skipWs (optCh '.' r))

/-- `\s*\(?[Tt]able\s*` -/
def figBranch3 (s : List Char) : Option (List Char) :=
  (litCI "table".data (figPre s)).map skipWs

/-- Try the three figure/table alternatives in pattern order at the
current position; returns the rest after the match. -/
def figMatchAt (s : List Char) : Option (List Char) :=
  match figBranch1 s with
  | some r => some r
  | none =>
    match figBranch2 s with
    | some r => some r
    | none => figBranch3 s

/-- `\s*\(?\s*[,]*\s*` shared by the two supplementary alternatives. -/
def suppPre (s : List Char) : List Char :=
  skipWs (skipCommas (skipWs (optCh '(' (skipWs s))))

/-- `\s*\(?\s*[,]*\s*[Ss]upplementary\s*\)?` -/
def suppBranchA (s : List Char) : Option (List Char) :=
  (litCI "supplementary".data (suppPre s)).map (fun r => optCh ')' (skipWs r))

/-- The `[A-Za-z]+` backtracking loop of the second supplementary
alternative: after the shared prefix `p`, try consuming `k` letters
(longest first), then `\s*[Ss]upplementary\s*\)?`. -/
def suppTryK (p : List Char) : Nat → Option (List Char)
  | 0 => none
  | k + 1 =>
    match litCI "supplementary".data (skipWs (p.drop (k + 1))) with
    | some r => some (optCh ')' (skipWs r))
    | none => suppTryK p k

/-- `\s*\(?\s*[,]*\s*[A-Za-z]+\s*[Ss]upplementary\s*\)?` -/
def suppBranchB (s : List Char) : Option (List Char) :=
  let p := suppPre s
  suppTryK p (p.takeWhile Char.isAlpha).length

/-- Try the two supplementary alternatives in pattern order. -/
def suppMatchAt (s : List Char) : Option (List Char) :=
  match suppBranchA s with
  | some r => some r
  | none => suppBranchB s

/-- Leftmost match: scan positions left to right; returns the start
index of the match and the rest of the string after the match. -/
def scanMatch (matchAt : List Char → Option (List Char)) :
    List Char → Option (Nat × List Char)
  | [] =>
    match matchAt [] with
    | some r => some (0, r)
    | none => none
  | c :: cs =>
    match matchAt (c :: cs) with
    | some r => some (0, r)
    | none => (scanMatch matchAt cs).map (fun p => (p.1 + 1, p.2))

/-- `re.sub(pattern, '', s)`: repeatedly delete the leftmost match and
continue after it.  Every match of either pattern consumes at least one
character, so `s.length` steps of fuel always suffice. -/
def subFuel (matchAt : List Char → Option (List Char)) :
    Nat → List Char → List Char
  | 0, s => s
  | fuel + 1, s =>
    match scanMatch matchAt s with
    | none => s
    | some (i, rest) => s.take i ++ subFuel matchAt fuel rest

/-- `re.sub` of the figure/fig./table pattern with empty replacement. -/
def figSubStr (s : String) : String := ⟨subFuel figMatchAt s.data.length s.data⟩

/-- `re.sub` of the supplementary pattern with empty replacement. -/
def suppSubStr (s : String) : String := ⟨subFuel suppMatchAt s.data.length s.data⟩

/-! ### The markup tree (bs4 `Tag` / `NavigableString`)

`Node`/`NodeList` form a mutual pair (rather than nesting `List Node`
inside `Node`) so that the tree traversals below are plain structural
recursions. -/

mutual
/-- A parsed markup node: an element (tag name, attribute list, ordered
children) or a bare text node. -/
inductive Node where
  | text : String → Node
  | elem : String → List (String × String) → NodeList → Node
/-- An ordered forest of sibling nodes. -/
inductive NodeList where
  | nil : NodeList
  | cons : Node → NodeList → NodeList
end

/-- Build a `NodeList` from a Lean list literal. -/
def nlist : List Node → NodeList
  | [] => .nil
  | n :: rest => .cons n (nlist rest)

/-- The children of an element as a Lean list (`list(tag.children)`). -/
def NodeList.toList : NodeList → List Node
  | .nil => []
  | .cons n rest => n :: rest.toList

/-- Attribute lookup (`Tag.get`): `none` models Python `None`. -/
def getAttrL (attrs : List (String × String)) (k : String) : Option String :=
  match attrs.find? (fun kv => kv.1 == k) with
  | some kv => some kv.2
  | none => none

/-- Attribute lookup on a node; text nodes carry no attributes. -/
def getAttrN (n : Node) (k : String) : Option String :=
  match n with
  | .text _ => none
  | .elem _ attrs _ => getAttrL attrs k

/-- Does this node match a `find`/`find_all` query: element with the
given tag whose attributes include every requested key/value pair. -/
def nodeMatches (tag : String) (attrs : List (String × String)) (n : Node) : Bool :=
  match n with
  | .text _ => false
  | .elem t a _ => t == tag && attrs.all (fun kv => getAttrL a kv.1 == some kv.2)

mutual
/-- Matching elements among the strict descendants of a node, in
document (preorder) order. -/
def findAllN (tag : String) (attrs : List (String × String)) : Node → List Node
  | .text _ => []
  | .elem _ _ cs => findAllNL tag attrs cs
/-- Matching elements among the nodes of a forest and their
descendants, in document (preorder) order — bs4 `find_all`. -/
def findAllNL (tag : String) (attrs : List (String × String)) : NodeList → List Node
  | .nil => []
  | .cons (.text _) rest => findAllNL tag attrs rest
  | .cons (.elem t a cs) rest =>
    (if nodeMatches tag attrs (.elem t a cs) then [Node.elem t a cs] else []) ++
      findAllNL tag attrs cs ++ findAllNL tag attrs rest
end

/-- bs4 `find_all` on a node (searches strict descendants). -/
def findAll (n : Node) (tag : String) (attrs : List (String × String)) : List Node :=
  findAllN tag attrs n

/-- bs4 `find`: first match in document order, `none` models Python `None`. -/
def findFirst (n : Node) (tag : String) (attrs : List (String × String)) : Option Node :=
  (findAll n tag attrs).head?

mutual
/-- bs4 `.text`: a text node is its own text, an element concatenates
the text of its descendants. -/
def textOf : Node → String
  | .text s => s
  | .elem _ _ cs => textOfL cs
/-- Concatenated text of a forest (bs4 `.text` with no separator). -/
def textOfL : NodeList → String
  | .nil => ""
  | .cons (.text s) rest => s ++ textOfL rest
  | .cons (.elem _ _ cs) rest => textOfL cs ++ textOfL rest
end

/-- The direct children of a node (`list(tag.children)`). -/
def childrenOf : Node → List Node
  | .text _ => []
  | .elem _ _ cs => cs.toList

mutual
/-- bs4 value equality (`Tag.__eq__` compares name, attributes and
contents recursively; `NavigableString.__eq__` compares the strings):
the `p == p_all[-1]` comparison of the section assembler. -/
def nodeEq : Node → Node → Bool
  | .text s, .text t => s == t
  | .elem t1 a1 c1, .elem t2 a2 c2 => t1 == t2 && a1 == a2 && nodeEqL c1 c2
  | _, _ => false
/-- bs4 value equality lifted to forests. -/
def nodeEqL : NodeList → NodeList → Bool
  | .nil, .nil => true
  | .cons a r1, .cons b r2 => nodeEq a b && nodeEqL r1 r2
  | _, _ => false
end

/-! ### Reference table builder (`parse_references`) -/

/-- A reference record `{title, author}` stored in the reference table. -/
structure RefRec where
  title : String
  author : String
deriving DecidableEq

/-- The reference table: a Python dict modelled as an association list
with unique keys in insertion order. -/
abbrev RefDict := List (String × RefRec)

/-- `reference_dict.get(k)` (Python dict lookup). -/
def dictGet (d : RefDict) (k : String) : Option RefRec :=
  (d.find? (fun p => p.1 == k)).map (fun p => p.2)

/-- `reference_list[k] = v` (Python dict assignment: overwrite in place
if the key exists, append otherwise). -/
def dictInsert (d : RefDict) (k : String) (v : RefRec) : RefDict :=
  if d.any (fun p => p.1 == k) then
    d.map (fun p => if p.1 == k then (k, v) else p)
  else
    d ++ [(k, v)]

/-- First author's name: `f"{lastname} {firstname}{middlename}".strip()`
with each part taken from the first matching descendant, stripped, and
empty when absent. -/
def authorName (a : Node) : String :=
  let firstname :=
    match findFirst a "forename" [("type", "first")] with
    | some f => pyStrip (textOf f)
    | none => ""
  let middlename :=
    match findFirst a "forename" [("type", "middle")] with
    | some m => pyStrip (textOf m)
    | none => ""
  let lastname :=
    match findFirst a "surname" [] with
    | some l => pyStrip (textOf l)
    | none => ""
  pyStrip (lastname ++ " " ++ firstname ++ middlename)

/-- Title of a bibliographic entry: analytic-level (`level="a"`) title,
falling back to monograph level (`level="m"`), else `""`; the text is
not stripped. -/
def biblTitle (b : Node) : String :=
  match findFirst b "title" [("level", "a")] with
  | some t => textOf t
  | none =>
    match findFirst b "title" [("level", "m")] with
    | some t => textOf t
    | none => ""

/-- One `biblstruct`: kept only when the author element list is
non-empty and the extracted title text is non-empty; the stored id is
the `xml:id` attribute (default `""`). -/
def refEntry (b : Node) : Option (String × RefRec) :=
  match findAll b "author" [] with
  | [] => none
  | a :: _ =>
    if biblTitle b = "" then none
    else some ((getAttrN b "xml:id").getD "", ⟨biblTitle b, authorName a⟩)

/-- Folding step of the reference-table loop. -/
def refStep (d : RefDict) (b : Node) : RefDict :=
  match refEntry b with
  | none => d
  | some (k, v) => dictInsert d k v

/-- The `biblstruct` elements of the references division inside the
main `text` region (empty when either region is absent). -/
def biblstructsOf (article : Node) : List Node :=
  match findFirst article "text" [] with
  | none => []
  | some t =>
    match findFirst t "div" [("type", "references")] with
    | none => []
    | some refs => findAll refs "biblstruct" []

/-- `parse_references`: build the id → `{title, author}` table. -/
def parse_references (article : Node) : RefDict :=
  (biblstructsOf article).foldl refStep []

/-! ### Language extractor (`parse_language`) -/

/-- `parse_language`: `""` when the header region is absent, otherwise
the `xml:lang` attribute of the header — which is Python `None`
(modelled `none`) when the attribute is missing. -/
def parse_language (article : Node) : Option String :=
  match findFirst article "teiheader" [] with
  | some h => getAttrN h "xml:lang"
  | none => some ""

/-! ### Paragraph reconstructor (`reconstruct_paragraph`) -/

/-- The reconstructor's loop state: the accumulated text and the
`switch` flag (does the preceding emitted element expect a stray `)`
or leading-space artifact in the next text node). -/
structure RecState where
  buf : String
  sw : Bool
deriving DecidableEq

/-- `element.get('type')` coerced the way Python's truthiness tests see
it: absent and `""` are both falsy. -/
def typeStr (attrs : List (String × String)) : String :=
  (getAttrL attrs "type").getD ""

/-- `element.get('target')` with absent coerced to `""`. -/
def targetStr (attrs : List (String × String)) : String :=
  (getAttrL attrs "target").getD ""

/-- One iteration of the `reconstruct_paragraph` loop over a child:
citation markers resolve against the table (silently skipped when the
target id is absent), any other non-empty `type` attribute triggers the
retroactive figure/fig./table stripping of the whole buffer, and text
nodes lose one leading `)`/space artifact when the flag is set and are
then run through the supplementary stripping. -/
def recStep (d : RefDict) (st : RecState) (n : Node) : RecState :=
  match n with
  | .text s =>
    let t := if st.sw && (strStartsWith s ")" || strStartsWith s " ") then strDrop s 1 else s
    ⟨st.buf ++ suppSubStr t, false⟩
  | .elem _ attrs _ =>
    if typeStr attrs = "bibr" ∧ targetStr attrs ≠ "" ∧ d ≠ [] then
      match dictGet d (strDrop (targetStr attrs) 1) with
      | none => st
      | some ref =>
        let rs := "[bib_ref] " ++ ref.title ++ ", " ++ ref.author ++ " [/bib_ref]"
        let buf := if strEndsWith st.buf "[/bib_ref]" then st.buf ++ " " else st.buf
        ⟨buf ++ rs, true⟩
    else if typeStr attrs ≠ "" then
      ⟨figSubStr st.buf, true⟩
    else st

/-- The loop of `reconstruct_paragraph` over the children of a
paragraph node, starting from an empty buffer and a cleared flag. -/
def reconstructChildren (d : RefDict) (ns : List Node) : String :=
  (ns.foldl (recStep d) ⟨"", false⟩).buf

/-- `reconstruct_paragraph`: `""` on an empty text node or an element
(childless elements give `""` through the empty loop); calling it on a
non-empty bare text node raises (`NavigableString` has no `.contents`),
modelled as `Except.error`. -/
def reconstruct_paragraph (p : Node) (d : RefDict) : Except Unit String :=
  match p with
  | .text s => if s = "" then .ok "" else .error ()
  | .elem _ _ cs => .ok (reconstructChildren d cs.toList)

/-! ### Section assembler (`parse_text`) -/

/-- A transient section: markdown-prefixed heading and paragraph texts. -/
structure Section where
  heading : String
  text : List String
deriving DecidableEq

/-- The closed set of canonical top-level section names of the source
(`common_titles`). -/
def common_titles : List String :=
  ["abstract", "introduction", "materialandmethods", "methods", "results",
   "discussion", "conclusion"]

/-- Heading classification of the body pass: `"# "` prefix when the
stripped, lowercased heading text is in `common_titles`, else `"## "`. -/
def bodyHeading (s : String) : String :=
  if pyLower (pyStrip s) ∈ common_titles then "# " ++ s ++ "\n" else "## " ++ s ++ "\n"

/-- The paragraph texts of a multi-child section: each child is
reconstructed, then a `"\n\n"` separator is appended when the child
compares equal (bs4 value equality) to the last child, else `"\n"`. -/
def buildParts (d : RefDict) (p_all : List Node) : Except Unit (List String) :=
  match p_all.getLast? with
  | none => .ok []
  | some last =>
    p_all.mapM (fun p =>
      (reconstruct_paragraph p d).map (fun r =>
        r ++ (if nodeEq p last then "\n\n" else "\n")))

/-- `if heading or text_parts: sections.append(...)`. -/
def sectionsIfAny (h : String) (parts : List String) : List Section :=
  if h = "" ∧ parts = [] then [] else [⟨h, parts⟩]

/-- The abstract pass on one `div`'s children: a single child is always
reconstructed as a paragraph (raising on a non-empty bare text node);
with several children a leading text node becomes a `"## "` heading. -/
def abstractDivSecs (d : RefDict) (cs : List Node) : Except Unit (List Section) :=
  match cs with
  | [] => .ok []
  | [c] => (reconstruct_paragraph c d).map (fun r => [⟨"", [r ++ "\n\n"]⟩])
  | c :: rest =>
    match c with
    | .text s => (buildParts d rest).map (sectionsIfAny ("## " ++ s ++ "\n"))
    | .elem _ _ _ => (buildParts d cs).map (sectionsIfAny "")

/-- The body pass on one `div`'s children: a single bare text child
becomes a heading-only section, a single element child a headingless
paragraph; with several children a leading text node becomes a heading
classified by `bodyHeading`. -/
def bodyDivSecs (d : RefDict) (cs : List Node) : Except Unit (List Section) :=
  match cs with
  | [] => .ok []
  | [c] =>
    match c with
    | .text s => .ok [⟨"# " ++ s ++ "\n\n", []⟩]
    | .elem _ _ _ => (reconstruct_paragraph c d).map (fun r => [⟨"", [r]⟩])
  | c :: rest =>
    match c with
    | .text s => (buildParts d rest).map (sectionsIfAny (bodyHeading s))
    | .elem _ _ _ => (buildParts d cs).map (sectionsIfAny "")

/-- The TEI namespace string used by the `div` queries. -/
def teiNS : String := "http://www.tei-c.org/ns/1.0"

/-- Both passes of the section assembler.  `abstract.find_all` and
`article_text.find_all` are called without a `None` guard in the
source, so a missing `abstract` or `text` region raises
(`AttributeError`), modelled as `Except.error`. -/
def sectionsOf (article : Node) : Except Unit (List Section) := do
  let d := parse_references article
  match findFirst article "abstract" [] with
  | none => .error ()
  | some abs => do
    let absDivs := findAll abs "div" [("xmlns", teiNS)]
    let headSecs : List Section :=
      if absDivs.isEmpty then [] else [⟨"# Abstract\n\n", []⟩]
    let absSecs ← absDivs.mapM (fun dv => abstractDivSecs d (childrenOf dv))
    match findFirst article "text" [] with
    | none => .error ()
    | some txt => do
      let bodySecs ← (findAll txt "div" [("xmlns", teiNS)]).mapM
        (fun dv => bodyDivSecs d (childrenOf dv))
      pure (headSecs ++ absSecs.flatten ++ bodySecs.flatten)

/-- The boilerplate section list (`irrelevant_sections`). -/
def irrelevant_sections : List String :=
  ["acknowledgement", "conflict of interest", "funding", "author contribution",
   "competing interests", "supplementary material", "additional information",
   "supplementary information", "data availability", "appendix"]

/-- A section is dropped when any boilerplate phrase occurs as a
substring of its stripped, lowercased heading. -/
def isIrrelevant (heading : String) : Bool :=
  irrelevant_sections.any (fun x => strContains (pyLower (pyStrip heading)) (pyStrip x))

/-- Concatenate surviving sections: heading first, then each paragraph. -/
def concatSections (secs : List Section) : String :=
  secs.foldl
    (fun acc sec =>
      if isIrrelevant sec.heading then acc
      else sec.text.foldl (fun a t => a ++ t) (acc ++ sec.heading))
    ""

/-- `parse_text`: the reference count is the size of the reference
table; the text is the concatenation of the assembled sections. -/
def parse_text (article : Node) : Except Unit (Nat × String) :=
  (sectionsOf article).map
    (fun secs => ((parse_references article).length, concatSections secs))

/-! ### Claim-side (specification-worded) definitions

These follow the words of the spec/claims, to be compared against the
source-derived functions above. -/

/-- The author string the table would store for an entry (empty when
the entry has no author element). -/
def claimAuthorStr (b : Node) : String :=
  match findAll b "author" [] with
  | [] => ""
  | a :: _ => authorName a

/-- Claim C4's counting rule, following the claim's words: the number
of bibliographic entries whose extracted title AND extracted author
string are both non-empty. -/
def spec_bothNonemptyCount (article : Node) : Nat :=
  ((biblstructsOf article).filter
    (fun b => !(biblTitle b == "") && !(claimAuthorStr b == ""))).length

/-- The source's actual inclusion filter, restated over a bare
`biblstruct`: non-empty extracted title and at least one author element. -/
def spec_qualifies (b : Node) : Bool :=
  !(findAll b "author" []).isEmpty && !(biblTitle b == "")

/-- The identifiers of the qualifying entries, in document order (with
duplicates, before the dict collapses them). -/
def spec_qualIds (article : Node) : List String :=
  ((biblstructsOf article).filter spec_qualifies).map
    (fun b => (getAttrN b "xml:id").getD "")

/-! ### Concrete input trees used by counterexamples and witnesses -/

/-- An inline citation marker `<ref type="bibr" target=...>label</ref>`. -/
def refMarker (target : String) (label : String) : Node :=
  .elem "ref" [("type", "bibr"), ("target", target)] (nlist [.text label])

/-- An inline figure marker `<ref type="figure">1</ref>`. -/
def figMarker : Node := .elem "ref" [("type", "figure")] (nlist [.text "1"])

/-- The reference table of the C1 scenario. -/
def refsC1 : RefDict := [("b1", ⟨"A Study", "Smith J"⟩)]

/-- The paragraph children of the C1 scenario: a marker resolving to
`b1`, a marker targeting the unknown `b9`, then plain text. -/
def parC1 : List Node :=
  [refMarker "#b1" "1", refMarker "#b9" "9", .text " confirms this."]

/-- A reference table whose stored title contains "Supplementary". -/
def refsC9 : RefDict := [("b1", ⟨"Supplementary data", "X Y"⟩)]

/-- A document whose references division holds one entry with a title
but an author element carrying no name parts. -/
def docC4 : Node :=
  .elem "[document]" [] (nlist
    [.elem "abstract" [] .nil,
     .elem "text" [] (nlist
       [.elem "div" [("type", "references")] (nlist
         [.elem "biblstruct" [("xml:id", "b1")] (nlist
           [.elem "title" [("level", "a")] (nlist [.text "T"]),
            .elem "author" [] .nil])])])])

/-- A document with a `text` region but no `abstract` element. -/
def docNoAbstract : Node := .elem "[document]" [] (nlist [.elem "text" [] .nil])

/-- A document with an `abstract` element but no `text` region. -/
def docNoText : Node := .elem "[document]" [] (nlist [.elem "abstract" [] .nil])

/-- A document whose abstract contains a div with a single bare text child. -/
def docC5 : Node :=
  .elem "[document]" [] (nlist
    [.elem "abstract" [] (nlist [.elem "div" [("xmlns", teiNS)] (nlist [.text "Background"])]),
     .elem "text" [] .nil])

/-- A document whose header carries no language attribute. -/
def docHdrNoLang : Node := .elem "[document]" [] (nlist [.elem "teiheader" [] .nil])

/-- A document with no header region at all. -/
def docNoHdr : Node := .elem "[document]" [] .nil

/-- A document whose header declares `xml:lang="en"`. -/
def docHdrLang : Node :=
  .elem "[document]" [] (nlist [.elem "teiheader" [("xml:lang", "en")] .nil])

/-! ### Helper lemmas about the reference-table fold -/

/-- String append concatenates the underlying character lists, so
lengths add. -/
theorem strLen_append (a b : String) : (a ++ b).length = a.length + b.length := by
  cases a with
  | mk la =>
    cases b with
    | mk lb =>
      show (la ++ lb).length = la.length + lb.length
      exact List.length_append la lb

/-- Overwriting the value at an existing key leaves the key list of the
table unchanged. -/
theorem overwriteKeys_eq (d : RefDict) (k : String) (v : RefRec) :
    ((d.map fun p => if p.1 == k then (k, v) else p).map Prod.fst) = d.map Prod.fst := by
  rw [List.map_map]
  apply List.map_congr_left
  intro p _
  show Prod.fst (if p.1 == k then (k, v) else p) = p.1
  by_cases hpk : p.1 == k
  · rw [if_pos hpk]
    exact (eq_of_beq hpk).symm
  · rw [if_neg hpk]

/-- Inserting into the table inserts the key into the key set. -/
theorem dictInsert_keys (d : RefDict) (k : String) (v : RefRec) :
    ((dictInsert d k v).map Prod.fst).toFinset = insert k (d.map Prod.fst).toFinset := by
  unfold dictInsert
  split
  · next h =>
    rw [overwriteKeys_eq]
    have hk : k ∈ (d.map Prod.fst).toFinset := by
      simp only [List.any_eq_true] at h
      obtain ⟨p, hp, hpk⟩ := h
      simp only [List.mem_toFinset, List.mem_map]
      exact ⟨p, hp, eq_of_beq hpk⟩
    exact (Finset.insert_eq_self.mpr hk).symm
  · next h =>
    simp [List.map_append, Finset.union_comm, Finset.insert_eq]

/-- Inserting into the table preserves distinctness of the keys. -/
theorem dictInsert_nodup (d : RefDict) (k : String) (v : RefRec)
    (h : (d.map Prod.fst).Nodup) : ((dictInsert d k v).map Prod.fst).Nodup := by
  unfold dictInsert
  split
  · next _ => rw [overwriteKeys_eq]; exact h
  · next hany =>
    have hk : k ∉ d.map Prod.fst := by
      intro hmem
      rw [List.mem_map] at hmem
      obtain ⟨p, hp, hpk⟩ := hmem
      exact hany (List.any_eq_true.mpr ⟨p, hp, beq_iff_eq.mpr hpk⟩)
    simp only [List.map_append, List.map_cons, List.map_nil]
    refine List.nodup_append.mpr ⟨h, List.nodup_singleton k, ?_⟩
    intro a ha hak
    rw [List.mem_singleton] at hak
    exact hk (hak ▸ ha)

/-- The reference-table fold: its key set is the set of identifiers of
the qualifying entries, and distinctness of keys is preserved. -/
theorem refFold_keys (bs : List Node) : ∀ d : RefDict,
    (((bs.foldl refStep d).map Prod.fst).toFinset
      = (d.map Prod.fst).toFinset
        ∪ (bs.filterMap fun b => (refEntry b).map Prod.fst).toFinset)
    ∧ ((d.map Prod.fst).Nodup → ((bs.foldl refStep d).map Prod.fst).Nodup) := by
  induction bs with
  | nil => intro d; simp
  | cons b bs ih =>
    intro d
    cases hre : refEntry b with
    | none =>
      have hstep : refStep d b = d := by unfold refStep; rw [hre]
      have hfm : ((b :: bs).filterMap fun x => (refEntry x).map Prod.fst)
          = bs.filterMap fun x => (refEntry x).map Prod.fst :=
        List.filterMap_cons_none (by rw [hre]; rfl)
      rw [List.foldl_cons, hstep, hfm]
      exact ih d
    | some kv =>
      obtain ⟨k, v⟩ := kv
      have hstep : refStep d b = dictInsert d k v := by unfold refStep; rw [hre]
      have hfm : ((b :: bs).filterMap fun x => (refEntry x).map Prod.fst)
          = k :: bs.filterMap fun x => (refEntry x).map Prod.fst :=
        List.filterMap_cons_some (by rw [hre]; rfl)
      rw [List.foldl_cons, hstep, hfm]
      constructor
      · rw [(ih (dictInsert d k v)).1, dictInsert_keys]
        rw [List.toFinset_cons, Finset.insert_union, Finset.union_insert]
      · intro hnd
        exact (ih (dictInsert d k v)).2 (dictInsert_nodup d k v hnd)

/-- A `biblstruct` contributes an entry exactly when it qualifies
(non-empty title and at least one author element), and the contributed
key is its `xml:id`. -/
theorem refEntry_qual (b : Node) :
    (refEntry b).map Prod.fst
      = if spec_qualifies b then some ((getAttrN b "xml:id").getD "") else none := by
  unfold refEntry spec_qualifies
  cases findAll b "author" [] with
  | nil => simp
  | cons a rest =>
    by_cases ht : biblTitle b = ""
    · simp [ht]
    · simp [ht]

/-- The identifiers contributed by the fold are exactly `spec_qualIds`. -/
theorem qualIds_eq (article : Node) :
    ((biblstructsOf article).filterMap fun b => (refEntry b).map Prod.fst)
      = spec_qualIds article := by
  unfold spec_qualIds
  induction biblstructsOf article with
  | nil => rfl
  | cons b bs ih =>
    simp only [List.filterMap_cons, List.filter_cons, refEntry_qual b]
    by_cases h : spec_qualifies b
    · simp [h, ih]
    · simp [h, ih]

/-- The size of the reference table is the number of distinct
identifiers among the qualifying bibliographic entries. -/
theorem parse_references_length (article : Node) :
    (parse_references article).length = ((spec_qualIds article).dedup).length := by
  have h := refFold_keys (biblstructsOf article) []
  have hnd : ((parse_references article).map Prod.fst).Nodup := by
    unfold parse_references
    exact h.2 (by simp)
  have hfin : ((parse_references article).map Prod.fst).toFinset
      = (spec_qualIds article).toFinset := by
    unfold parse_references
    rw [h.1, qualIds_eq]
    simp
  calc (parse_references article).length
      = ((parse_references article).map Prod.fst).length := (List.length_map _ _).symm
    _ = ((parse_references article).map Prod.fst).toFinset.card :=
        (List.toFinset_card_of_nodup hnd).symm
    _ = (spec_qualIds article).toFinset.card := by rw [hfin]
    _ = ((spec_qualIds article).dedup).length := List.card_toFinset _

/-- When `parse_text` succeeds, the returned count is the size of the
reference table. -/
theorem parse_text_ok_count (article : Node) (n : Nat) (t : String)
    (h : parse_text article = .ok (n, t)) : n = (parse_references article).length := by
  unfold parse_text at h
  cases hs : sectionsOf article with
  | error e => rw [hs] at h; simp [Except.map] at h
  | ok secs =>
    rw [hs] at h
    simp only [Except.map, Except.ok.injEq, Prod.mk.injEq] at h
    exact h.1.symm

/-- Each stored record's title comes from a qualifying entry, hence is
non-empty. -/
theorem refEntry_some_title (b : Node) (k : String) (v : RefRec)
    (h : refEntry b = some (k, v)) : v.title ≠ "" := by
  unfold refEntry at h
  split at h
  · exact absurd h (by simp)
  · split at h
    · exact absurd h (by simp)
    · next ht =>
      rw [Option.some_inj, Prod.mk.injEq] at h
      rw [← h.2]
      exact ht

/-- Insertion preserves the all-titles-non-empty invariant. -/
theorem dictInsert_title_mem (d : RefDict) (k : String) (v : RefRec) (e : String × RefRec)
    (hv : v.title ≠ "") (hd : ∀ x ∈ d, x.2.title ≠ "") (he : e ∈ dictInsert d k v) :
    e.2.title ≠ "" := by
  unfold dictInsert at he
  split at he
  · rw [List.mem_map] at he
    obtain ⟨p, hp, hfp⟩ := he
    by_cases hpk : p.1 == k
    · rw [if_pos hpk] at hfp; rw [← hfp]; exact hv
    · rw [if_neg hpk] at hfp; rw [← hfp]; exact hd p hp
  · rw [List.mem_append] at he
    rcases he with he | he
    · exact hd e he
    · simp only [List.mem_singleton] at he
      rw [he]
      exact hv

/-- The reference-table fold preserves the all-titles-non-empty invariant. -/
theorem refFold_titles (bs : List Node) : ∀ d : RefDict,
    (∀ x ∈ d, x.2.title ≠ "") → ∀ e ∈ bs.foldl refStep d, e.2.title ≠ "" := by
  induction bs with
  | nil => intro d hd; simpa using hd
  | cons b bs ih =>
    intro d hd
    simp only [List.foldl_cons]
    apply ih
    intro x hx
    unfold refStep at hx
    cases hre : refEntry b with
    | none => rw [hre] at hx; exact hd x hx
    | some kv =>
      obtain ⟨k, v⟩ := kv
      rw [hre] at hx
      exact dictInsert_title_mem d k v x (refEntry_some_title b k v hre) hd hx

/-! ### Claim C1 -/

/-- Claim C1, counterexample: on the C1 scenario paragraph the
reconstructor does NOT return the claimed string
`"[bib_ref] A Study, Smith J [/bib_ref] confirms this."` — the space
before "confirms" is consumed, because the unresolved marker leaves the
artifact flag set (it was set by the resolved marker). -/
theorem reconstruct_scenario_space_lost :
    reconstructChildren refsC1 parC1
      ≠ "[bib_ref] A Study, Smith J [/bib_ref] confirms this." := by decide

/-- Claim C1 (amended): on the scenario paragraph the reconstructor
returns exactly `"[bib_ref] A Study, Smith J [/bib_ref]confirms this."`;
the unresolved marker emits nothing and leaves the state — buffer and
pendingCloseArtifact flag — unchanged, and since the flag is still set
from the resolved marker the single leading space of
`" confirms this."` is stripped as an artifact. -/
theorem reconstruct_unresolved_marker_scenario :
    reconstructChildren refsC1 parC1
        = "[bib_ref] A Study, Smith J [/bib_ref]confirms this."
    ∧ ∀ st : RecState, recStep refsC1 st (refMarker "#b9" "9") = st :=
  ⟨rfl, fun _ => rfl⟩

/-! ### Claim C2 -/

/-- Claim C2, counterexample: with the buffer `"figure a figure"`, a
figure marker removes BOTH occurrences of "figure" (the substitution is
global), yielding `"a"`, not the `"figure a"` that removing only the
trailing occurrence would give. -/
theorem figure_marker_not_trailing_only :
    reconstructChildren [] [.text "figure a figure", figMarker] = "a"
    ∧ reconstructChildren [] [.text "figure a figure", figMarker] ≠ "figure a" :=
  ⟨rfl, by decide⟩

/-- Claim C2 (amended): when the reconstructor processes a figure/table
marker (non-empty type attribute, not hitting the citation branch), it
emits no new text and replaces the accumulated buffer by the GLOBAL
substitution `figSubStr` that deletes every (optionally
parenthesis-prefixed, whitespace-surrounded, case-insensitive)
occurrence of "figure", "fig(.)" or "table" anywhere in the buffer —
not only a trailing one — and sets the artifact flag. -/
theorem figure_marker_strips_globally (d : RefDict) (st : RecState)
    (tag : String) (attrs : List (String × String)) (cs : NodeList)
    (h1 : typeStr attrs ≠ "")
    (h2 : ¬(typeStr attrs = "bibr" ∧ targetStr attrs ≠ "" ∧ d ≠ [])) :
    recStep d st (.elem tag attrs cs) = ⟨figSubStr st.buf, true⟩ := by
  simp only [recStep]
  rw [if_neg h2, if_pos h1]

/-- Claim C2, witness for the amended theorem at a concrete marker and
buffer. -/
theorem figure_marker_strips_globally_witness :
    recStep [] ⟨"See figure 1", false⟩ figMarker = ⟨figSubStr "See figure 1", true⟩ :=
  figure_marker_strips_globally [] ⟨"See figure 1", false⟩ "ref" [("type", "figure")]
    (nlist [.text "1"]) (by decide) (by decide)

/-! ### Claim C3 -/

/-- Claim C3: the code evaluated at the failing inputs.  A tree with no
`abstract` element and a tree with no `text` element both make the
text-assembly step raise (`None.find_all`, an `AttributeError`) instead
of degrading to an empty value, so no record is produced. -/
theorem parse_text_missing_regions_raise :
    parse_text docNoAbstract = .error () ∧ parse_text docNoText = .error () :=
  ⟨rfl, rfl⟩

/-! ### Claim C4 -/

/-- Claim C4, counterexample: `docC4`'s references division has exactly
one entry, whose title is `"T"` but whose author element carries no name
parts, so its extracted author string is empty; `parse_text` still
reports `referencecount = 1` while the claim's count (entries with
title AND author string both non-empty) is `0`. -/
theorem referencecount_counts_blank_author_entry :
    parse_text docC4 = .ok (1, "") ∧ spec_bothNonemptyCount docC4 = 0 :=
  ⟨rfl, rfl⟩

/-- Claim C4 (amended): for every document, the `referencecount` field
of a successful conversion equals the number of DISTINCT identifiers
among the bibliographic entries whose extracted title is non-empty and
which contain at least one author element (the extracted author string
may still be empty); duplicate identifiers are collapsed by the table
(last entry wins), and the count is exactly the size of the reference
table actually built. -/
theorem referencecount_eq_distinct_qualifying (article : Node) (n : Nat) (t : String)
    (h : parse_text article = .ok (n, t)) :
    n = ((spec_qualIds article).dedup).length := by
  rw [parse_text_ok_count article n t h, parse_references_length]

/-- Claim C4, witness: the amended theorem applied to `docC4`. -/
theorem referencecount_eq_distinct_qualifying_witness :
    (1 : Nat) = ((spec_qualIds docC4).dedup).length :=
  referencecount_eq_distinct_qualifying docC4 1 "" rfl

/-! ### Claim C5 -/

/-- Claim C5, counterexample: a single bare-text child is handled
differently by the two passes — the body pass makes it a heading-only
section, while the abstract pass unconditionally reconstructs it as a
paragraph, which raises on a non-empty bare text node (and makes the
whole text assembly of `docC5` fail). -/
theorem single_text_child_abstract_vs_body :
    abstractDivSecs [] [Node.text "Background"] = .error ()
    ∧ bodyDivSecs [] [Node.text "Background"] = .ok [⟨"# Background\n\n", []⟩]
    ∧ parse_text docC5 = .error () :=
  ⟨rfl, rfl, rfl⟩

/-- Claim C5 (amended): only the body pass distinguishes the single
child: bare text becomes a heading-only section and an element becomes
a single headingless reconstructed paragraph (with no trailing
separator).  The abstract pass always treats the single child as a
reconstructed paragraph with `"\n\n"` appended, raising on a non-empty
bare text child. -/
theorem single_child_div_handling (d : RefDict) (s : String)
    (tag : String) (attrs : List (String × String)) (cs : NodeList)
    (hs : s ≠ "") :
    bodyDivSecs d [Node.text s] = .ok [⟨"# " ++ s ++ "\n\n", []⟩]
    ∧ bodyDivSecs d [Node.elem tag attrs cs] = .ok [⟨"", [reconstructChildren d cs.toList]⟩]
    ∧ abstractDivSecs d [Node.text s] = .error ()
    ∧ abstractDivSecs d [Node.elem tag attrs cs]
        = .ok [⟨"", [reconstructChildren d cs.toList ++ "\n\n"]⟩] := by
  refine ⟨rfl, rfl, ?_, rfl⟩
  simp [abstractDivSecs, reconstruct_paragraph, hs, Except.map]

/-- Claim C5, witness for the amended theorem at concrete children. -/
theorem single_child_div_handling_witness :
    bodyDivSecs [] [Node.text "Background"] = .ok [⟨"# Background\n\n", []⟩]
    ∧ abstractDivSecs [] [Node.text "Background"] = .error () := by
  have h := single_child_div_handling [] "Background" "p" [] NodeList.nil (by decide)
  exact ⟨h.1, h.2.2.1⟩

/-! ### Claim C6 -/

/-- Claim C6, counterexample: the heading `"Materials and Methods"` is
classified SUB-level (`"## "`), not top-level as the claim states: the
source's closed set contains the space-free string
`"materialandmethods"`, and matching is a plain equality test after
strip/lower, not whitespace-insensitive. -/
theorem materials_and_methods_sublevel :
    bodyHeading "Materials and Methods" = "## Materials and Methods\n"
    ∧ bodyHeading "Materials and Methods" ≠ "# Materials and Methods\n" :=
  ⟨rfl, by decide⟩

/-- Claim C6 (amended): a body heading is classified top-level (`"# "`)
exactly when its text, stripped of outer whitespace and lowercased, is
literally one of `common_titles` (which contains `"materialandmethods"`,
not `"materials and methods"`); interior whitespace is significant, and
every other heading gets the `"## "` prefix. -/
theorem bodyHeading_classification (s : String) :
    (bodyHeading s = "# " ++ s ++ "\n" ↔ pyLower (pyStrip s) ∈ common_titles)
    ∧ (pyLower (pyStrip s) ∉ common_titles → bodyHeading s = "## " ++ s ++ "\n") := by
  by_cases h : pyLower (pyStrip s) ∈ common_titles
  · exact ⟨⟨fun _ => h, fun _ => by simp [bodyHeading, h]⟩, fun hn => absurd h hn⟩
  · have hb : bodyHeading s = "## " ++ s ++ "\n" := by simp [bodyHeading, h]
    refine ⟨⟨fun he => ?_, fun hm => absurd hm h⟩, fun _ => hb⟩
    exfalso
    rw [hb] at he
    have hlen := congrArg String.length he
    rw [strLen_append, strLen_append, strLen_append, strLen_append] at hlen
    have h3 : ("## " : String).length = 3 := rfl
    have h2 : ("# " : String).length = 2 := rfl
    have h1 : ("\n" : String).length = 1 := rfl
    rw [h3, h2, h1] at hlen
    omega

/-- Claim C6, witness: the amended classification at the three concrete
headings named by the claim. -/
theorem bodyHeading_classification_witness :
    bodyHeading "Results" = "# Results\n"
    ∧ bodyHeading "Materials and Methods" = "## Materials and Methods\n" :=
  ⟨(bodyHeading_classification "Results").1.mpr (by decide),
   (bodyHeading_classification "Materials and Methods").2 (by decide)⟩

/-! ### Claim C7 -/

/-- Claim C7, counterexample: the entry of `docC4` is stored with a
blank author string (its author element has no name parts), and the
reconstructor then emits the citation `"[bib_ref] T,  [/bib_ref]"` with
a blank author field. -/
theorem reference_table_blank_author_emitted :
    parse_references docC4 = [("b1", ⟨"T", ""⟩)]
    ∧ reconstructChildren (parse_references docC4) [refMarker "#b1" "1"]
        = "[bib_ref] T,  [/bib_ref]" :=
  ⟨rfl, rfl⟩

/-- Claim C7 (amended): the builder skips an entry only when its title
text is empty or it has NO author element, so every stored record has a
non-empty title — but the stored author string may be empty (an author
element without name parts), and the reconstructor can then emit a
citation string with a blank author field. -/
theorem reference_table_titles_nonempty (article : Node) (k : String) (r : RefRec)
    (h : (k, r) ∈ parse_references article) : r.title ≠ "" :=
  refFold_titles (biblstructsOf article) [] (by simp) (k, r) h

/-- Claim C7, witness: the amended invariant applied to the entry of
`docC4`. -/
theorem reference_table_titles_nonempty_witness : ("T" : String) ≠ "" :=
  reference_table_titles_nonempty docC4 "b1" ⟨"T", ""⟩ (by decide)

/-! ### Claim C8 -/

/-- Claim C8, counterexample: on a document whose header region carries
no language attribute the extractor returns Python `None` (modelled
`none`), not the empty string the claim asserts. -/
theorem parse_language_missing_attr_not_empty :
    parse_language docHdrNoLang ≠ some "" := by decide

/-- Claim C8 (amended): the language extractor never raises; it returns
`""` when the header region is absent, the attribute value when
present, but Python `None` (not a string) when the header region is
present without a language attribute. -/
theorem parse_language_cases :
    parse_language docNoHdr = some ""
    ∧ parse_language docHdrNoLang = none
    ∧ parse_language docHdrLang = some "en" :=
  ⟨rfl, rfl, rfl⟩

/-! ### Claim C9 -/

/-- Claim C9, counterexample: with a reference table whose stored title
contains "Supplementary", the reconstructed output of a paragraph is
changed when fed back through the reconstructor as a single bare text
node — the supplementary-stripping rule re-triggers on the emitted
citation text. -/
theorem reconstruct_not_idempotent_on_supp_title :
    reconstructChildren refsC9 [refMarker "#b1" "1"]
        = "[bib_ref] Supplementary data, X Y [/bib_ref]"
    ∧ reconstructChildren refsC9 [.text "[bib_ref] Supplementary data, X Y [/bib_ref]"]
        = "[bib_ref]data, X Y [/bib_ref]"
    ∧ ("[bib_ref]data, X Y [/bib_ref]" : String)
        ≠ "[bib_ref] Supplementary data, X Y [/bib_ref]" :=
  ⟨rfl, rfl, by decide⟩

/-- Claim C9 (amended): feeding the reconstructed text of any paragraph
back through the reconstructor as a single bare text node (flag
initially false) applies exactly one round of the supplementary
stripping to it; this is the identity only when that text contains no
match of the supplementary pattern, which reference records containing
"Supplementary" violate. -/
theorem reconstruct_feedback_is_suppSub (d : RefDict) (ns : List Node) :
    reconstructChildren d [.text (reconstructChildren d ns)]
      = suppSubStr (reconstructChildren d ns) := rfl

/-! ### Claim C10 -/

/-- Claim C10: with an empty reference table, a citation marker
(type `"bibr"` with a target) is NOT skipped leaving the text
unaffected: it falls into the figure/table branch, so the
figure/fig./table stripping is applied to the accumulated buffer and
the pendingCloseArtifact flag is set to true. -/
theorem bibr_marker_empty_table_fig_branch (buf : String) (sw : Bool) :
    recStep [] ⟨buf, sw⟩ (refMarker "#b1" "1") = ⟨figSubStr buf, true⟩ := rfl
